import Mathlib

/-!
Verification of the `kor` schema model and tag-encoding core
(`src/kor/elements.py`) against its natural-language specification.

The Python source is shallowly embedded below: each Python function or
dataclass property becomes a Lean definition with the same name (modulo
Lean naming rules), strings are Lean `String`s, Python lists and tuples
are Lean lists and pairs, a `dict` is its list of items in iteration
order, and fallible construction (`__post_init__` raising `ValueError`)
is modelled with `Except String`. The claims of the specification are
then proved as theorems about those definitions.
-/

namespace Kor

/-! ## Python string primitives used by the source -/

/-- Python `<=` on strings, on the underlying character lists:
lexicographic comparison by code point. -/
def charListLe : List Char → List Char → Bool
  | [], _ => true
  | _ :: _, [] => false
  | a :: as, b :: bs => decide (a < b) || (a == b && charListLe as bs)

/-- Python `a <= b` for strings. -/
def strLe (a b : String) : Bool := charListLe a.toList b.toList

/-- `strLe` as a relation, used for the sorts performed by the source
(`sorted(...)` in `_write_complex_tag` and `Selection.option_ids`). -/
def strLeP (a b : String) : Prop := strLe a b = true

instance : DecidableRel strLeP := fun a b => inferInstanceAs (Decidable (strLe a b = true))

/-- Embeds Python `str.endswith`. -/
def pyEndsWith (s suffix : String) : Bool := suffix.toList.isSuffixOf s.toList

/-- Embeds Python `str.removesuffix`: drop the suffix when present. -/
def pyRemovesuffix (s suffix : String) : String :=
  if pyEndsWith s suffix then
    String.mk (s.toList.take (s.toList.length - suffix.toList.length))
  else s

/-- Embeds Python `sep.join(parts)`. -/
def joinWith (sep : String) : List String → String
  | [] => ""
  | [x] => x
  | x :: xs => x ++ sep ++ joinWith sep xs

/-- Python's `str` whitespace predicate (the character set stripped by
`str.strip()` with no arguments): ASCII whitespace, the C1 information
separators, and the Unicode space separators. -/
def pyIsSpace (c : Char) : Bool :=
  (decide (0x09 ≤ c.toNat) && decide (c.toNat ≤ 0x0D)) ||
  (decide (0x1C ≤ c.toNat) && decide (c.toNat ≤ 0x1F)) ||
  c.toNat == 0x20 || c.toNat == 0x85 || c.toNat == 0xA0 || c.toNat == 0x1680 ||
  (decide (0x2000 ≤ c.toNat) && decide (c.toNat ≤ 0x200A)) ||
  c.toNat == 0x2028 || c.toNat == 0x2029 || c.toNat == 0x202F ||
  c.toNat == 0x205F || c.toNat == 0x3000

/-- Embeds Python `str.strip()` with no arguments: remove leading and
trailing whitespace characters. -/
def pyStrip (s : String) : String :=
  String.mk (((s.toList.dropWhile pyIsSpace).reverse.dropWhile pyIsSpace).reverse)

/-! ## Tag writer (`_write_single_tag`, `_write_tag`, `_write_complex_tag`) -/

/-- The dynamic type `str | Sequence[str]` of the `data_values` argument of
`_write_tag`, and of extraction values in `ExtractionInput.examples`. -/
inductive StrOrList where
  | str (s : String)
  | list (l : List String)
deriving DecidableEq

/-- Embeds `_write_single_tag(tag_name, data)`:
`f"<{tag_name}>{data}</{tag_name}>"`. -/
def write_single_tag (tag_name data : String) : String :=
  "<" ++ tag_name ++ ">" ++ data ++ "</" ++ tag_name ++ ">"

/-- Embeds `_write_tag(tag_name, data_values)`: a single string is first
wrapped in a one-element list, then every value is rendered with
`_write_single_tag` and the renderings are joined with no separator. -/
def write_tag (tag_name : String) : StrOrList → String
  | .str s => String.join ([s].map (write_single_tag tag_name))
  | .list l => String.join (l.map (write_single_tag tag_name))

/-- The comparison used by `sorted(data.items(), key=lambda item: item[0])`
in `_write_complex_tag`: pairs are compared by key (first component) only. -/
def keyLe (a b : String × StrOrList) : Prop := strLeP a.1 b.1

instance : DecidableRel keyLe := fun a b => inferInstanceAs (Decidable (strLe a.1 b.1 = true))

/-- Embeds `_write_complex_tag(tag_name, data)`: the key/value pairs of the
mapping are stably sorted by key (Python's `sorted` with a key function is
a stable sort, modelled by insertion sort with the non-strict by-key
comparison), each pair is rendered with `_write_tag(key, value)`, the
renderings are concatenated, and the result is wrapped via
`_write_tag(tag_name, s_data)`. -/
def write_complex_tag (tag_name : String) (data : List (String × StrOrList)) : String :=
  let s_data := String.join ((List.insertionSort keyLe data).map fun kv => write_tag kv.1 kv.2)
  write_tag tag_name (.str s_data)

/-! ## Identifier validation (`VALID_IDENTIFIER_PATTERN`) -/

/-- Character class `[a-z_]` of the identifier pattern. -/
def isIdStart (c : Char) : Bool :=
  (decide ('a' ≤ c) && decide (c ≤ 'z')) || c == '_'

/-- Character class `[0-9a-z_]` of the identifier pattern. -/
def isIdCont (c : Char) : Bool :=
  isIdStart c || (decide ('0' ≤ c) && decide (c ≤ '9'))

/-- Matching of the remaining input against `[0-9a-z_]*$` under Python
`re` semantics: without `re.MULTILINE`, `$` matches at the end of the
string *or just before a newline at the end of the string*, so the star
may stop in front of a single trailing `'\n'`. -/
def pyStarDollar : List Char → Bool
  | [] => true
  | [c] => c == '\n' || isIdCont c
  | c :: cs => isIdCont c && pyStarDollar cs

/-- Embeds truthiness of `VALID_IDENTIFIER_PATTERN.match(id)`, i.e.
`re.match(r"^[a-z_][0-9a-z_]*$", id)` under Python `re` semantics
(see `pyStarDollar` for the treatment of `$`). -/
def pyMatchChars : List Char → Bool
  | [] => false
  | c :: cs => isIdStart c && pyStarDollar cs

/-- `pyMatchChars` on a string. -/
def pyPatternMatch (s : String) : Bool := pyMatchChars s.toList

/-- Modelled from the spec: membership in the language of the regular
expression `^[a-z_][0-9a-z_]*$` read mathematically, with `$` anchoring at
the very end of the string. Used to compare the code's acceptance
behaviour against the spec's wording. -/
def matchIdChars : List Char → Bool
  | [] => false
  | c :: cs => isIdStart c && cs.all isIdCont

/-- `matchIdChars` on a string. -/
def matchesIdentifierPattern (s : String) : Bool := matchIdChars s.toList

/-! ## The schema model -/

/-- Embeds `AbstractInput.__post_init__`: raise `ValueError` unless
`VALID_IDENTIFIER_PATTERN.match(self.id)` is truthy. Run by every field
constructor below, so an entity is only produced for an accepted id. -/
def post_init_check (id : String) : Except String Unit :=
  if pyPatternMatch id then Except.ok ()
  else Except.error ("`" ++ id ++ "` is not a valid identifier. " ++
    "Please only use lower cased a-z, _ or the digits 0-9")

/-- Whether an `Except`-returning construction succeeded. -/
def isOk {α : Type} : Except String α → Bool
  | .ok _ => true
  | .error _ => false

/-- Embeds the dataclass `Option` (one selectable choice belonging to a
`Selection`); called `OptionInput` here because `Option` is a core Lean
type. `id`, `description`, `multiple` and `custom_type_name` are the
fields inherited from `AbstractInput`, with the source's defaults. -/
structure OptionInput where
  id : String
  description : String := ""
  multiple : Bool := false
  custom_type_name : Option String := none
  examples : List String := []
deriving DecidableEq

/-- Embeds the dataclass `Selection`. -/
structure Selection where
  id : String
  description : String := ""
  multiple : Bool := false
  custom_type_name : Option String := none
  options : List OptionInput
  null_examples : List String := []
deriving DecidableEq

/-- The `AbstractInput` fields plus the `examples` field shared by every
concrete `ExtractionInput` subclass (and by `Form`). -/
structure ExtractionData where
  id : String
  description : String := ""
  multiple : Bool := false
  custom_type_name : Option String := none
  examples : List (String × StrOrList) := []
deriving DecidableEq

/-- The concrete scalar `ExtractionInput` subclasses of the source. -/
inductive ScalarKind where
  | dateInput
  | number
  | timePeriod
  | numericRange
  | textInput
deriving DecidableEq

/-- The Python class name (`self.__class__.__name__`) of each scalar kind. -/
def ScalarKind.className : ScalarKind → String
  | .dateInput => "DateInput"
  | .number => "Number"
  | .timePeriod => "TimePeriod"
  | .numericRange => "NumericRange"
  | .textInput => "TextInput"

/-- The `ExtractionInput` hierarchy: the five scalar leaf classes, and
`Form`, which additionally owns a list of `ExtractionInput` elements
(recursive, since a `Form` is itself an `ExtractionInput`). -/
inductive ExtractionNode where
  | scalar (kind : ScalarKind) (data : ExtractionData)
  | form (data : ExtractionData) (elements : List ExtractionNode)

/-- The inherited `AbstractInput`/`ExtractionInput` fields of a node. -/
def ExtractionNode.data : ExtractionNode → ExtractionData
  | .scalar _ d => d
  | .form d _ => d

/-- The Python class name of a node. -/
def ExtractionNode.className : ExtractionNode → String
  | .scalar k _ => k.className
  | .form _ _ => "Form"

/-! ## Type descriptor derivation (`type_name`) -/

/-- Embeds `AbstractInput.type_name`: take the class name, prefix it with
`"Multiple "` when `multiple` is set, then strip a trailing `"Input"`. -/
def abstractTypeName (className : String) (multiple : Bool) : String :=
  let class_name := if multiple then "Multiple " ++ className else className
  if pyEndsWith class_name "Input" then pyRemovesuffix class_name "Input" else class_name

/-- `type_name` of a scalar field or form (inherited from `AbstractInput`). -/
def ExtractionNode.type_name (n : ExtractionNode) : String :=
  abstractTypeName n.className n.data.multiple

/-- `type_name` of an `Option` (inherited from `AbstractInput`). -/
def OptionInput.type_name (o : OptionInput) : String :=
  abstractTypeName "Option" o.multiple

/-- Embeds `Selection.option_ids`:
`sorted(option.id for option in self.options)`. -/
def Selection.option_ids (s : Selection) : List String :=
  List.insertionSort strLeP (s.options.map OptionInput.id)

/-- Embeds `Selection.type_name` (the override of the base rule). -/
def Selection.type_name (s : Selection) : String :=
  let options_string := joinWith "," s.option_ids
  if s.multiple then "Multiple Select[" ++ options_string ++ "]"
  else "Select[" ++ options_string ++ "]"

/-! ## Example compilation (`llm_examples`) -/

/-- The body of `ExtractionInput.llm_examples`: for each
`(text, extraction)` pair, an extraction that is a string whose `strip()`
is empty encodes as `""`, anything else as `_write_tag(self.id, extraction)`. -/
def compileExtractionExamples (id : String) (examples : List (String × StrOrList)) :
    List (String × String) :=
  examples.map fun te =>
    (te.1,
      match te.2 with
      | .str s => if pyStrip s = "" then "" else write_tag id (.str s)
      | .list l => write_tag id (.list l))

/-- `llm_examples` of a scalar field or of a `Form` (`Form` does not
override `ExtractionInput.llm_examples`, so both branches delegate to the
inherited body over `self.id` and `self.examples`). -/
def ExtractionNode.llm_examples : ExtractionNode → List (String × String)
  | .scalar _ d => compileExtractionExamples d.id d.examples
  | .form d _ => compileExtractionExamples d.id d.examples

/-- Embeds `Selection.llm_examples`: for each option in declared order, for
each of its example texts in declared order, the pair
`(example, _write_tag(self.id, option.id))`; then one `(null_example, "")`
pair per entry of `null_examples`, in declared order. -/
def Selection.llm_examples (s : Selection) : List (String × String) :=
  (s.options.map fun o => o.examples.map fun ex => (ex, write_tag s.id (.str o.id))).flatten
    ++ s.null_examples.map fun ne => (ne, "")

/-! ## Validated constructors (dataclass construction + `__post_init__`) -/

/-- Construct an `Option`; fails exactly when `__post_init__` raises. -/
def mkOptionInput (id description : String) (multiple : Bool)
    (custom_type_name : Option String) (examples : List String) :
    Except String OptionInput :=
  (post_init_check id).map fun _ =>
    { id := id, description := description, multiple := multiple,
      custom_type_name := custom_type_name, examples := examples }

/-- Construct a `Selection`; fails exactly when `__post_init__` raises.
(The `options` are already-constructed values; the source validates each
option's own id at the option's construction, and performs no check at all
on the collection of options.) -/
def mkSelection (id description : String) (multiple : Bool)
    (custom_type_name : Option String) (options : List OptionInput)
    (null_examples : List String) : Except String Selection :=
  (post_init_check id).map fun _ =>
    { id := id, description := description, multiple := multiple,
      custom_type_name := custom_type_name, options := options,
      null_examples := null_examples }

/-- Construct a scalar extraction field; fails exactly when
`__post_init__` raises. -/
def mkScalar (kind : ScalarKind) (d : ExtractionData) : Except String ExtractionNode :=
  (post_init_check d.id).map fun _ => ExtractionNode.scalar kind d

/-- Construct a `Form`; fails exactly when `__post_init__` raises. -/
def mkForm (d : ExtractionData) (elements : List ExtractionNode) :
    Except String ExtractionNode :=
  (post_init_check d.id).map fun _ => ExtractionNode.form d elements

/-! ## Order-theoretic facts about the Python string comparison -/

theorem charListLe_total : ∀ as bs : List Char, charListLe as bs = true ∨ charListLe bs as = true
  | [], _ => Or.inl rfl
  | _ :: _, [] => Or.inr rfl
  | a :: as, b :: bs => by
    rcases lt_trichotomy a b with h | h | h
    · left; simp [charListLe, h]
    · subst h
      rcases charListLe_total as bs with h' | h'
      · left; simp [charListLe, h', lt_irrefl]
      · right; simp [charListLe, h', lt_irrefl]
    · right; simp [charListLe, h]

theorem charListLe_trans : ∀ as bs cs : List Char,
    charListLe as bs = true → charListLe bs cs = true → charListLe as cs = true
  | [], _, _, _, _ => rfl
  | _ :: _, [], _, h₁, _ => by simp [charListLe] at h₁
  | _ :: _, _ :: _, [], _, h₂ => by simp [charListLe] at h₂
  | a :: as, b :: bs, c :: cs, h₁, h₂ => by
    simp only [charListLe, Bool.or_eq_true, Bool.and_eq_true, decide_eq_true_eq,
      beq_iff_eq] at h₁ h₂ ⊢
    rcases h₁ with h₁ | ⟨rfl, h₁⟩
    · rcases h₂ with h₂ | ⟨rfl, h₂⟩
      · exact Or.inl (lt_trans h₁ h₂)
      · exact Or.inl h₁
    · rcases h₂ with h₂ | ⟨rfl, h₂⟩
      · exact Or.inl h₂
      · exact Or.inr ⟨rfl, charListLe_trans as bs cs h₁ h₂⟩

theorem charListLe_antisymm : ∀ as bs : List Char,
    charListLe as bs = true → charListLe bs as = true → as = bs
  | [], [], _, _ => rfl
  | [], _ :: _, _, h₂ => by simp [charListLe] at h₂
  | _ :: _, [], h₁, _ => by simp [charListLe] at h₁
  | a :: as, b :: bs, h₁, h₂ => by
    simp only [charListLe, Bool.or_eq_true, Bool.and_eq_true, decide_eq_true_eq,
      beq_iff_eq] at h₁ h₂
    rcases h₁ with h₁ | ⟨rfl, h₁⟩
    · rcases h₂ with h₂ | ⟨rfl, h₂⟩
      · exact absurd (lt_trans h₁ h₂) (lt_irrefl _)
      · exact absurd h₁ (lt_irrefl _)
    · rcases h₂ with h₂ | ⟨-, h₂⟩
      · exact absurd h₂ (lt_irrefl _)
      · exact congrArg (a :: ·) (charListLe_antisymm as bs h₁ h₂)

instance : IsTotal String strLeP := ⟨fun a b => charListLe_total a.toList b.toList⟩

instance : IsTrans String strLeP := ⟨fun _ _ _ => charListLe_trans _ _ _⟩

theorem strLeP_antisymm {a b : String} (h₁ : strLeP a b) (h₂ : strLeP b a) : a = b :=
  String.toList_inj.mp (charListLe_antisymm _ _ h₁ h₂)

instance : IsTotal (String × StrOrList) keyLe := ⟨fun _ _ => charListLe_total _ _⟩

instance : IsTrans (String × StrOrList) keyLe := ⟨fun _ _ _ => charListLe_trans _ _ _⟩

/-- Two lists of key/value pairs that are sorted by key, are permutations
of each other, and have pairwise-distinct keys are equal. -/
theorem sorted_perm_eq_of_nodup_keys :
    ∀ {l₁ l₂ : List (String × StrOrList)}, l₁.Perm l₂ → (l₁.map Prod.fst).Nodup →
      l₁.Sorted keyLe → l₂.Sorted keyLe → l₁ = l₂ := by
  intro l₁
  induction l₁ with
  | nil =>
    intro l₂ hp _ _ _
    exact hp.nil_eq
  | cons a t₁ ih =>
    intro l₂ hp hn hs₁ hs₂
    cases l₂ with
    | nil => exact absurd hp.eq_nil (List.cons_ne_nil a t₁)
    | cons b t₂ =>
      by_cases hab : a = b
      · subst hab
        have hn' : (t₁.map Prod.fst).Nodup := (List.nodup_cons.mp (by simpa using hn)).2
        exact congrArg (a :: ·) (ih hp.cons_inv hn' hs₁.of_cons hs₂.of_cons)
      · exfalso
        have ha₂ : a ∈ t₂ := by
          rcases List.mem_cons.mp (hp.subset (List.mem_cons_self a t₁)) with h | h
          · exact absurd h hab
          · exact h
        have hb₁ : b ∈ t₁ := by
          rcases List.mem_cons.mp (hp.symm.subset (List.mem_cons_self b t₂)) with h | h
          · exact absurd h.symm hab
          · exact h
        have hk : a.1 = b.1 :=
          strLeP_antisymm (List.rel_of_sorted_cons hs₁ b hb₁)
            (List.rel_of_sorted_cons hs₂ a ha₂)
        have hmem : b.1 ∈ t₁.map Prod.fst := List.mem_map_of_mem Prod.fst hb₁
        rw [← hk] at hmem
        exact (List.nodup_cons.mp (by simpa using hn)).1 hmem

/-! ## Characterisation of the Python regex match and of `strip()` -/

/-- `[0-9a-z_]*$` under Python `re` semantics accepts exactly: all
characters in the class, or all but a single trailing newline in the
class. -/
theorem pyStarDollar_eq : ∀ cs : List Char,
    pyStarDollar cs =
      (cs.all isIdCont || ((cs.getLast? == some '\n') && cs.dropLast.all isIdCont))
  | [] => rfl
  | [c] => by
    cases hc : c == '\n' <;> cases hi : isIdCont c <;>
      simp [pyStarDollar, hc, hi]
  | c :: c' :: cs => by
    have ih := pyStarDollar_eq (c' :: cs)
    rw [List.getLast?_cons_cons, List.dropLast_cons₂]
    cases h : isIdCont c <;>
      simp [pyStarDollar, h, ih, Bool.and_or_distrib_left, Bool.and_left_comm]

/-- The Python match of `^[a-z_][0-9a-z_]*$` accepts exactly the strings
in the mathematical language of the pattern, plus those consisting of such
a match followed by one trailing newline. -/
theorem pyMatchChars_eq (l : List Char) :
    pyMatchChars l =
      (matchIdChars l || ((l.getLast? == some '\n') && matchIdChars l.dropLast)) := by
  cases l with
  | nil => rfl
  | cons c cs =>
    cases cs with
    | nil => cases h : isIdStart c <;> simp [pyMatchChars, matchIdChars, pyStarDollar, h]
    | cons c' cs' =>
      have h := pyStarDollar_eq (c' :: cs')
      rw [List.getLast?_cons_cons, List.dropLast_cons₂]
      cases hs : isIdStart c <;>
        simp [pyMatchChars, matchIdChars, pyStarDollar, hs, h,
          Bool.and_or_distrib_left, Bool.and_left_comm]

/-- The string-level statement of `pyMatchChars_eq`. -/
theorem pyPatternMatch_iff (s : String) :
    pyPatternMatch s = true ↔
      (matchesIdentifierPattern s = true ∨
        (s.toList.getLast? = some '\n' ∧ matchIdChars s.toList.dropLast = true)) := by
  rw [pyPatternMatch, matchesIdentifierPattern, pyMatchChars_eq]
  simp

/-- Every element of `dropWhile p l` satisfying `p` is the same as every
element of `l` satisfying `p` (the dropped ones satisfy `p` anyway). -/
theorem forall_mem_dropWhile_iff {p : Char → Bool} {l : List Char} :
    (∀ x ∈ l.dropWhile p, p x = true) ↔ ∀ x ∈ l, p x = true := by
  constructor
  · intro h x hx
    have hx' : x ∈ l.takeWhile p ++ l.dropWhile p := by
      rw [List.takeWhile_append_dropWhile]; exact hx
    rcases List.mem_append.mp hx' with h₁ | h₂
    · exact List.mem_takeWhile_imp h₁
    · exact h x h₂
  · intro h x hx
    exact h x ((List.dropWhile_sublist p).subset hx)

/-- `s.strip()` is empty exactly when `s` is empty or all-whitespace. -/
theorem pyStrip_eq_empty_iff (s : String) :
    pyStrip s = "" ↔ s.toList.all pyIsSpace = true := by
  rw [pyStrip, ← String.toList_inj]
  show ((s.toList.dropWhile pyIsSpace).reverse.dropWhile pyIsSpace).reverse = ([] : List Char) ↔ _
  simp only [List.reverse_eq_nil_iff, List.dropWhile_eq_nil_iff, List.mem_reverse]
  rw [forall_mem_dropWhile_iff, List.all_eq_true]

/-- A construction wrapped around `post_init_check` succeeds exactly when
the id is accepted by the pattern match. -/
theorem isOk_post_init_map {α : Type} (id : String) (f : Unit → α) :
    isOk ((post_init_check id).map f) = pyPatternMatch id := by
  unfold post_init_check
  cases h : pyPatternMatch id <;> simp [h, Except.map, isOk]

/-! ## The spec's "variant name" (for the default descriptor rule) -/

/-- The spec's variant name of each scalar kind (the class name with the
`Input` suffix removed), modelled from the spec's wording for comparison
against the source-derived `type_name`. -/
def ScalarKind.variantName : ScalarKind → String
  | .dateInput => "Date"
  | .number => "Number"
  | .timePeriod => "TimePeriod"
  | .numericRange => "NumericRange"
  | .textInput => "Text"

/-- The spec's variant name of a non-Selection extraction field. -/
def ExtractionNode.variantName : ExtractionNode → String
  | .scalar k _ => k.variantName
  | .form _ _ => "Form"

/-! ## Claims -/

/-- **C1.** For every `Selection`, compiling examples yields exactly: for
each option in declared order, for each of that option's example texts in
declared order, the pair `(text, "<sel.id>opt.id</sel.id>")` — the tag
name is the selection's own id and the content is the option's id —
followed by one `(text, "")` pair for every entry of `null_examples`, in
declared order. -/
theorem selection_llm_examples_spec (s : Selection) :
    s.llm_examples =
      (s.options.map fun o => o.examples.map fun ex =>
        (ex, "<" ++ s.id ++ ">" ++ o.id ++ "</" ++ s.id ++ ">")).flatten
      ++ s.null_examples.map fun ne => (ne, "") := rfl

/-- **C2.** `write_complex_tag` renders each key/value pair with
`write_tag`, concatenates the renderings in ascending key order
(independent of the mapping's iteration order: two mappings with the same
key/value pairs give the same output), and wraps the concatenation in a
single enclosing tag named by the given name. -/
theorem write_complex_tag_canonical (name : String) (l₁ l₂ : List (String × StrOrList))
    (hperm : l₁.Perm l₂) (hnodup : (l₁.map Prod.fst).Nodup) :
    write_complex_tag name l₁ = write_complex_tag name l₂
    ∧ (List.insertionSort keyLe l₁).Sorted keyLe
    ∧ (List.insertionSort keyLe l₁).Perm l₁
    ∧ write_complex_tag name l₁ =
        write_single_tag name
          (String.join ((List.insertionSort keyLe l₁).map fun kv => write_tag kv.1 kv.2)) := by
  have hsort : List.insertionSort keyLe l₁ = List.insertionSort keyLe l₂ :=
    sorted_perm_eq_of_nodup_keys
      ((List.perm_insertionSort keyLe l₁).trans
        (hperm.trans (List.perm_insertionSort keyLe l₂).symm))
      (((List.perm_insertionSort keyLe l₁).map Prod.fst).nodup_iff.mpr hnodup)
      (List.sorted_insertionSort keyLe l₁) (List.sorted_insertionSort keyLe l₂)
  refine ⟨?_, List.sorted_insertionSort keyLe l₁, List.perm_insertionSort keyLe l₁, rfl⟩
  unfold write_complex_tag
  rw [hsort]

/-- Witness for **C2** at the spec's own example. -/
theorem write_complex_tag_canonical_witness :
    write_complex_tag "obj" [("b", .str "2"), ("a", .str "1")] =
      write_complex_tag "obj" [("a", .str "1"), ("b", .str "2")]
    ∧ write_complex_tag "obj" [("b", .str "2"), ("a", .str "1")] = "<obj><a>1</a><b>2</b></obj>" :=
  ⟨(write_complex_tag_canonical "obj" _ _ (List.Perm.swap _ _ _) (by decide)).1, by decide⟩

/-- **C3 counterexample.** The id `"a\n"` is not in the language of
`^[a-z_][0-9a-z_]*$`, yet constructing a field of any variant with this id
succeeds, because Python's `re` lets `$` also match just before a trailing
newline. -/
theorem identifier_trailing_newline_counterexample :
    matchesIdentifierPattern "a\n" = false
    ∧ isOk (mkOptionInput "a\n" "" false none []) = true
    ∧ isOk (mkScalar ScalarKind.textInput { id := "a\n" }) = true
    ∧ isOk (mkSelection "a\n" "" false none [] []) = true :=
  ⟨by decide, by decide, by decide, by decide⟩

/-- **C3 (amended).** For each field variant separately — option,
selection, every scalar kind, and form — constructing it with id `s`
succeeds iff `s` matches `^[a-z_][0-9a-z_]*$`, or `s` is such a match
followed by a single trailing newline (Python `re.match` semantics of
`$`); in particular `"A"`, `"1a"` and `""` still fail for every variant. -/
theorem construction_ok_iff_pattern_or_trailing_newline
    (s desc : String) (mult : Bool) (ctn : Option String) (oexs : List String)
    (k : ScalarKind) (d : ExtractionData) (opts : List OptionInput)
    (nulls : List String) (elems : List ExtractionNode) :
    (isOk (mkOptionInput s desc mult ctn oexs) = true
      ↔ (matchesIdentifierPattern s = true
          ∨ (s.toList.getLast? = some '\n' ∧ matchIdChars s.toList.dropLast = true)))
    ∧ (isOk (mkSelection s desc mult ctn opts nulls) = true
      ↔ (matchesIdentifierPattern s = true
          ∨ (s.toList.getLast? = some '\n' ∧ matchIdChars s.toList.dropLast = true)))
    ∧ (isOk (mkScalar k { d with id := s }) = true
      ↔ (matchesIdentifierPattern s = true
          ∨ (s.toList.getLast? = some '\n' ∧ matchIdChars s.toList.dropLast = true)))
    ∧ (isOk (mkForm { d with id := s } elems) = true
      ↔ (matchesIdentifierPattern s = true
          ∨ (s.toList.getLast? = some '\n' ∧ matchIdChars s.toList.dropLast = true))) := by
  unfold mkOptionInput mkSelection mkScalar mkForm
  rw [isOk_post_init_map, isOk_post_init_map, isOk_post_init_map, isOk_post_init_map]
  exact ⟨pyPatternMatch_iff s, pyPatternMatch_iff s, pyPatternMatch_iff s, pyPatternMatch_iff s⟩

/-- **C4.** For every scalar extraction field, compiling examples yields
one `(text, encoded)` pair per declared example, in declaration order,
where `encoded` is the empty string when the extraction is a single string
that is empty or all-whitespace, and `write_tag(id, extraction)`
otherwise. -/
theorem scalar_llm_examples_spec (k : ScalarKind) (d : ExtractionData) :
    (ExtractionNode.scalar k d).llm_examples =
      d.examples.map fun te =>
        (te.1,
          match te.2 with
          | .str s => if s.toList.all pyIsSpace then "" else write_tag d.id (.str s)
          | .list l => write_tag d.id (.list l)) := by
  show compileExtractionExamples d.id d.examples = _
  unfold compileExtractionExamples
  refine List.map_congr_left fun te _ => ?_
  cases h : te.2 with
  | str s =>
    simp only [h]
    by_cases hs : s.toList.all pyIsSpace = true
    · rw [if_pos ((pyStrip_eq_empty_iff s).mpr hs), if_pos hs]
    · rw [if_neg fun hc => hs ((pyStrip_eq_empty_iff s).mp hc), if_neg hs]
  | list l => simp only [h]

/-- **C5.** For every `Selection`, `type_name` is `Select[o1,o2,...]` over
the option ids sorted ascending lexicographically (a sorted permutation of
the declared ids, not declaration order), with prefix `Multiple ` exactly
when `multiple` is set. -/
theorem selection_type_name_spec (s : Selection) :
    s.type_name =
      (if s.multiple then "Multiple " else "") ++
        ("Select[" ++ joinWith "," s.option_ids ++ "]")
    ∧ s.option_ids.Sorted strLeP
    ∧ s.option_ids.Perm (s.options.map OptionInput.id) := by
  obtain ⟨id, desc, mult, ctn, opts, nulls⟩ := s
  refine ⟨?_, List.sorted_insertionSort strLeP _, List.perm_insertionSort strLeP _⟩
  cases mult <;> rfl

/-- **C6.** For every non-Selection field, `type_name` is the field's
variant name (class name without the `Input` suffix, e.g. `"Number"`,
`"Text"`), prefixed with `"Multiple "` exactly when `multiple` is set. -/
theorem default_type_name_spec :
    (∀ n : ExtractionNode,
      n.type_name = (if n.data.multiple then "Multiple " else "") ++ n.variantName)
    ∧ ∀ o : OptionInput,
      o.type_name = (if o.multiple then "Multiple " else "") ++ "Option" := by
  constructor
  · intro n
    cases n with
    | scalar k d =>
      obtain ⟨id, desc, mult, ctn, exs⟩ := d
      cases mult <;> cases k <;> rfl
    | form d elems =>
      obtain ⟨id, desc, mult, ctn, exs⟩ := d
      cases mult <;> rfl
  · intro o
    obtain ⟨id, desc, mult, ctn, exs⟩ := o
    cases mult <;> rfl

/-- **C7.** `write_tag` on a single string is exactly
`"<name>value</name>"` with no escaping; on a list it is the concatenation
of the single-tag renderings in list order, with no separators. -/
theorem write_tag_spec (name v : String) (l : List String) :
    write_tag name (.str v) = "<" ++ name ++ ">" ++ v ++ "</" ++ name ++ ">"
    ∧ write_tag name (.list l) =
        String.join (l.map fun x => "<" ++ name ++ ">" ++ x ++ "</" ++ name ++ ">") :=
  ⟨rfl, rfl⟩

/-- **C8.** The descriptor derivation never consults `custom_type_name`:
two fields of the same variant that differ only in `custom_type_name`
have equal `type_name`, for every variant. -/
theorem type_name_ignores_custom_type_name
    (d : ExtractionData) (k : ScalarKind) (elems : List ExtractionNode)
    (o : OptionInput) (s : Selection) (c₁ c₂ : Option String) :
    (ExtractionNode.scalar k { d with custom_type_name := c₁ }).type_name
      = (ExtractionNode.scalar k { d with custom_type_name := c₂ }).type_name
    ∧ (ExtractionNode.form { d with custom_type_name := c₁ } elems).type_name
      = (ExtractionNode.form { d with custom_type_name := c₂ } elems).type_name
    ∧ OptionInput.type_name { o with custom_type_name := c₁ }
      = OptionInput.type_name { o with custom_type_name := c₂ }
    ∧ Selection.type_name { s with custom_type_name := c₁ }
      = Selection.type_name { s with custom_type_name := c₂ } :=
  ⟨rfl, rfl, rfl, rfl⟩

/-- **C9.** Constructing a `Selection` whose options carry duplicate
(individually valid) ids succeeds without error, and `option_ids` (hence
the descriptor) lists each id as many times as it occurs among the
options, in sorted order — no failure, no deduplication. -/
theorem selection_duplicate_option_ids
    (id desc : String) (mult : Bool) (ctn : Option String)
    (opts : List OptionInput) (nulls : List String)
    (hid : pyPatternMatch id = true)
    (_hopts : ∀ o ∈ opts, pyPatternMatch o.id = true) :
    mkSelection id desc mult ctn opts nulls =
      Except.ok ⟨id, desc, mult, ctn, opts, nulls⟩
    ∧ (Selection.option_ids ⟨id, desc, mult, ctn, opts, nulls⟩).Sorted strLeP
    ∧ ∀ x : String,
        (Selection.option_ids ⟨id, desc, mult, ctn, opts, nulls⟩).count x
          = (opts.map OptionInput.id).count x := by
  refine ⟨?_, List.sorted_insertionSort strLeP _,
    fun x => (List.perm_insertionSort strLeP _).count_eq x⟩
  unfold mkSelection post_init_check
  rw [if_pos hid]
  rfl

/-- Witness for **C9**: a selection with duplicate option ids `b, a, b`. -/
theorem selection_duplicate_option_ids_witness :
    mkSelection "answer" "" false none
        [⟨"b", "", false, none, []⟩, ⟨"a", "", false, none, []⟩, ⟨"b", "", false, none, []⟩] [] =
      Except.ok ⟨"answer", "", false, none,
        [⟨"b", "", false, none, []⟩, ⟨"a", "", false, none, []⟩, ⟨"b", "", false, none, []⟩], []⟩
    ∧ Selection.type_name ⟨"answer", "", false, none,
        [⟨"b", "", false, none, []⟩, ⟨"a", "", false, none, []⟩, ⟨"b", "", false, none, []⟩], []⟩
        = "Select[a,b,b]" :=
  ⟨(selection_duplicate_option_ids "answer" "" false none _ _ (by decide) (by decide)).1,
    by decide⟩

/-- **C10.** A `Form`'s compiled examples are computed solely from its own
`examples` field by the scalar-field rule; the `elements` sequence is
never consulted, so two forms differing only in `elements` compile
identically. -/
theorem form_llm_examples_ignores_elements
    (d : ExtractionData) (e₁ e₂ : List ExtractionNode) (k : ScalarKind) :
    (ExtractionNode.form d e₁).llm_examples = (ExtractionNode.form d e₂).llm_examples
    ∧ (ExtractionNode.form d e₁).llm_examples = (ExtractionNode.scalar k d).llm_examples :=
  ⟨rfl, rfl⟩

end Kor
